import Mathlib

/-!
Shallow embedding of the study-tracker application (`app.py`).

The application is a Flask CRUD app over two SQLAlchemy tables, `User` and
`StudySession`.  We embed the database state as Lean lists of structures and
each route handler as a pure function on that state.  SQL `Float` hours are
modelled as exact rationals (`ℚ`); timestamps are modelled as day numbers
(`Nat`) counted from a Monday epoch, so that Python's `date.weekday()` is
`d % 7` with `0 = Monday`, exactly as in CPython.  The random draw
`random.randint(100000, 999999)` is modelled by a seed parameter mapped into
the same inclusive range.
-/

namespace StudyTracker

/-- Embeds the `User` model: integer primary key, non-nullable unique email,
nullable `current_otp` string (`db.Column(db.String(6), nullable=True)`). -/
structure User where
  id : Nat
  email : String
  current_otp : Option String
  deriving Repr, DecidableEq

/-- Embeds the `StudySession` model: integer primary key, subject, float
hours (modelled exactly as `ℚ`), timestamp (modelled as a day number from a
Monday epoch), and the owning user's id (`user_id` foreign key). -/
structure StudySession where
  id : Nat
  subject : String
  hours : ℚ
  date : Nat
  user_id : Nat
  deriving Repr, DecidableEq

/-- The persistent database state: the two tables. -/
structure DB where
  users : List User
  sessions : List StudySession
  deriving Repr, DecidableEq

/-- `User.query.filter_by(email=email).first()`: the first stored row whose
email column equals `e`. -/
def findUserByEmail : List User → String → Option User
  | [], _ => none
  | u :: us, e => if u.email == e then some u else findUserByEmail us e

/-- `session.get('pending_email')` may be absent (`None`).  SQLAlchemy's
`filter_by(email=None)` compiles to `email IS NULL`, and the email column is
`nullable=False`, so a missing pending email matches no stored row. -/
def lookupPending (us : List User) (pending : Option String) : Option User :=
  match pending with
  | none => none
  | some e => findUserByEmail us e

/-- A fresh autoincrement primary key: larger than every existing id. -/
def freshId (ids : List Nat) : Nat :=
  ids.foldr max 0 + 1

/-- `random.randint(100000, 999999)`: the draw, parametrised by a seed,
always lands in the inclusive range `[100000, 999999]`. -/
def genOtp (seed : Nat) : Nat :=
  100000 + seed % 900000

/-- `str(random.randint(100000, 999999))`: the decimal string stored into
`user.current_otp`. -/
def otpString (seed : Nat) : String :=
  Nat.repr (genOtp seed)

/-- Write `current_otp := c` on the first user whose email is `e` (the row
object returned by `filter_by(email=email).first()`). -/
def setOtpFirst (us : List User) (e : String) (c : Option String) : List User :=
  match us with
  | [] => []
  | u :: rest =>
    if u.email == e then { u with current_otp := c } :: rest
    else u :: setOtpFirst rest e c

/-- The `login` POST handler.  Auto-registers the email if unknown, then
generates an OTP, stores it on the user, and records the pending email in
the cookie session.  Returns the new database state and the value written to
`session['pending_email']`. -/
def login (db : DB) (email : String) (seed : Nat) : DB × String :=
  let users1 :=
    match findUserByEmail db.users email with
    | some _ => db.users
    | none => db.users ++ [⟨freshId (db.users.map User.id), email, none⟩]
  let users2 := setOtpFirst users1 email (some (otpString seed))
  ({ db with users := users2 }, email)

/-- The `verify` POST handler.  Looks up the pending email; on an exact OTP
match it logs the user in (`login_user`) and clears the stored OTP, else it
only flashes a message.  Returns the new database state and the id of the
user logged in (`none` when authentication did not happen). -/
def verify (db : DB) (pending : Option String) (entered : String) :
    DB × Option Nat :=
  match lookupPending db.users pending with
  | some u =>
    if u.current_otp == some entered then
      ({ db with users := setOtpFirst db.users u.email none }, some u.id)
    else
      (db, none)
  | none => (db, none)

/-- The `index` GET listing:
`StudySession.query.filter_by(user_id=current_user.id).order_by(StudySession.date.desc()).all()`. -/
def indexSessions (db : DB) (uid : Nat) : List StudySession :=
  (db.sessions.filter (fun s => s.user_id == uid)).mergeSort
    (fun a b => b.date ≤ a.date)

/-- `total_hours = sum(session.hours for session in sessions)` on the
listing. -/
def totalHours (db : DB) (uid : Nat) : ℚ :=
  ((indexSessions db uid).map StudySession.hours).sum

/-- The `index` POST handler: inserts a new `StudySession` stamped with the
current user's id and the current time. -/
def createSession (db : DB) (uid : Nat) (subject : String) (hours : ℚ)
    (now : Nat) : DB :=
  { db with
    sessions :=
      db.sessions ++
        [⟨freshId (db.sessions.map StudySession.id), subject, hours, now, uid⟩] }

/-- What the `delete` route answers: `get_or_404` aborts with 404, otherwise
the handler redirects to `/`. -/
inductive DeleteResp where
  | notFound
  | redirect
  deriving Repr, DecidableEq

/-- `StudySession.query.get_or_404(id)`: primary-key lookup, the first row
whose id equals `i`. -/
def getById : List StudySession → Nat → Option StudySession
  | [], _ => none
  | s :: ss, i => if s.id == i then some s else getById ss i

/-- The `delete/<id>` handler: 404 when the id does not exist; deletes the
row only when it belongs to the current user; always redirects otherwise. -/
def deleteOp (db : DB) (uid : Nat) (i : Nat) : DB × DeleteResp :=
  match getById db.sessions i with
  | none => (db, .notFound)
  | some s =>
    if s.user_id == uid then
      ({ db with sessions := db.sessions.eraseP (fun t => t.id == i) },
        .redirect)
    else
      (db, .redirect)

/-- Python's `date.weekday()`: `0` for Monday through `6` for Sunday, on
day numbers counted from a Monday epoch. -/
def weekday (d : Nat) : Nat := d % 7

/-- `start_of_week = today - timedelta(days=today.weekday())`. -/
def startOfWeek (today : Nat) : Nat := today - weekday today

/-- The stats query for chart 1:
`filter(user_id == current_user.id, date >= start_of_week)` — note there is
no upper bound on the date. -/
def currentWeekQuery (db : DB) (uid today : Nat) : List StudySession :=
  db.sessions.filter (fun s => s.user_id == uid && startOfWeek today ≤ s.date)

/-- `daily_values[day_index] += session.hours` on one bucket list. -/
def bump (l : List ℚ) (i : Nat) (h : ℚ) : List ℚ :=
  l.set i (l.getD i 0 + h)

/-- The bucket-filling loop of chart 1. -/
def fillBuckets (ss : List StudySession) (acc : List ℚ) : List ℚ :=
  match ss with
  | [] => acc
  | s :: rest => fillBuckets rest (bump acc (weekday s.date) s.hours)

/-- `daily_values`: the seven Mon–Sun buckets of the stats view. -/
def dailyValues (db : DB) (uid today : Nat) : List ℚ :=
  fillBuckets (currentWeekQuery db uid today) (List.replicate 7 0)

/-- The account's records whose timestamp falls in the current week
(Monday through Sunday), i.e. in `[start_of_week, start_of_week + 7)`. -/
def currentWeekRecords (db : DB) (uid today : Nat) : List StudySession :=
  db.sessions.filter (fun s =>
    s.user_id == uid && startOfWeek today ≤ s.date &&
      s.date < startOfWeek today + 7)

/-- One step of chart 3: `subject_data[s.subject] =
subject_data.get(s.subject, 0) + s.hours` on an insertion-ordered dict. -/
def dictAdd (m : List (String × ℚ)) (k : String) (v : ℚ) :
    List (String × ℚ) :=
  match m with
  | [] => [(k, v)]
  | (k', v') :: rest =>
    if k' == k then (k', v' + v) :: rest
    else (k', v') :: dictAdd rest k v

/-- Chart 3 of the stats view: per-subject totals over all of the account's
records. -/
def subjectData (db : DB) (uid : Nat) : List (String × ℚ) :=
  (db.sessions.filter (fun s => s.user_id == uid)).foldl
    (fun m s => dictAdd m s.subject s.hours) []

/-! ### Helper lemmas -/

theorem mem_indexSessions {db : DB} {uid : Nat} {s : StudySession} :
    s ∈ indexSessions db uid ↔
      s ∈ db.sessions.filter (fun t => t.user_id == uid) := by
  unfold indexSessions
  exact List.mem_mergeSort

theorem getById_of_mem {ss : List StudySession} {s : StudySession}
    (hnodup : (ss.map StudySession.id).Nodup) (hmem : s ∈ ss) :
    getById ss s.id = some s := by
  induction ss with
  | nil => exact absurd hmem (List.not_mem_nil s)
  | cons a rest ih =>
    rw [List.map_cons, List.nodup_cons] at hnodup
    rcases List.mem_cons.mp hmem with h | h
    · subst h
      simp [getById]
    · have hane : a.id ≠ s.id := by
        intro he
        exact hnodup.1 (he ▸ List.mem_map_of_mem StudySession.id h)
      unfold getById
      rw [if_neg (by simpa using hane)]
      exact ih hnodup.2 h

theorem findUserByEmail_email {us : List User} {e : String} {u : User}
    (h : findUserByEmail us e = some u) : u.email = e := by
  induction us with
  | nil => cases h
  | cons a rest ih =>
    unfold findUserByEmail at h
    by_cases hae : (a.email == e) = true
    · rw [if_pos hae] at h
      injection h with h
      subst h
      simpa using hae
    · rw [if_neg hae] at h
      exact ih h

theorem findUserByEmail_none {us : List User} {e : String}
    (h : ∀ u ∈ us, u.email ≠ e) : findUserByEmail us e = none := by
  induction us with
  | nil => rfl
  | cons a rest ih =>
    unfold findUserByEmail
    rw [if_neg (by simpa using h a (List.mem_cons_self a rest))]
    exact ih (fun u hu => h u (List.mem_cons_of_mem a hu))

theorem email_ne_of_find_none {us : List User} {e : String}
    (h : findUserByEmail us e = none) : ∀ u ∈ us, u.email ≠ e := by
  induction us with
  | nil => intro u hu; cases hu
  | cons a rest ih =>
    unfold findUserByEmail at h
    by_cases hae : (a.email == e) = true
    · rw [if_pos hae] at h
      cases h
    · rw [if_neg hae] at h
      intro u hu
      rcases List.mem_cons.mp hu with hh | hh
      · subst hh
        simpa using hae
      · exact ih h u hh

theorem setOtpFirst_map_email (us : List User) (e : String)
    (c : Option String) :
    (setOtpFirst us e c).map User.email = us.map User.email := by
  induction us with
  | nil => rfl
  | cons a rest ih =>
    unfold setOtpFirst
    by_cases hae : (a.email == e) = true
    · rw [if_pos hae]
      rfl
    · rw [if_neg hae]
      simp only [List.map_cons, ih]

theorem setOtpFirst_length (us : List User) (e : String) (c : Option String) :
    (setOtpFirst us e c).length = us.length := by
  have h := congrArg List.length (setOtpFirst_map_email us e c)
  simpa using h

theorem findUserByEmail_setOtpFirst {us : List User} {e : String} {u : User}
    (h : findUserByEmail us e = some u) (c : Option String) :
    findUserByEmail (setOtpFirst us e c) e =
      some { u with current_otp := c } := by
  induction us with
  | nil => cases h
  | cons a rest ih =>
    unfold findUserByEmail at h
    unfold setOtpFirst
    by_cases hae : (a.email == e) = true
    · rw [if_pos hae] at h
      injection h with h
      subst h
      rw [if_pos hae]
      unfold findUserByEmail
      dsimp only
      rw [if_pos hae]
    · rw [if_neg hae] at h
      rw [if_neg hae]
      unfold findUserByEmail
      rw [if_neg hae]
      exact ih h

theorem findUserByEmail_append_none {us : List User} {e : String}
    (h : findUserByEmail us e = none) (u : User) :
    findUserByEmail (us ++ [u]) e = findUserByEmail [u] e := by
  induction us with
  | nil => rfl
  | cons a rest ih =>
    unfold findUserByEmail at h
    rw [List.cons_append]
    unfold findUserByEmail
    by_cases hae : (a.email == e) = true
    · rw [if_pos hae] at h
      cases h
    · rw [if_neg hae] at h
      rw [if_neg hae]
      exact ih h

theorem login_users (db : DB) (e : String) (seed : Nat) :
    ((login db e seed).1).users =
      setOtpFirst
        (match findUserByEmail db.users e with
          | some _ => db.users
          | none => db.users ++ [⟨freshId (db.users.map User.id), e, none⟩])
        e (some (otpString seed)) := rfl

theorem deleteOp_users (db : DB) (uid i : Nat) :
    ((deleteOp db uid i).1).users = db.users := by
  unfold deleteOp
  cases hg : getById db.sessions i with
  | none => rfl
  | some s =>
    dsimp only
    by_cases hc : (s.user_id == uid) = true
    · rw [if_pos hc]
    · rw [if_neg hc]

theorem verify_map_email (db : DB) (pending : Option String)
    (entered : String) :
    (((verify db pending entered).1).users).map User.email =
      db.users.map User.email := by
  unfold verify
  cases hl : lookupPending db.users pending with
  | none => rfl
  | some u =>
    dsimp only
    by_cases hc : (u.current_otp == some entered) = true
    · rw [if_pos hc]
      exact setOtpFirst_map_email db.users u.email none
    · rw [if_neg hc]

theorem sum_set_getD (l : List ℚ) (i : Nat) (h : ℚ) (hi : i < l.length) :
    (l.set i (l.getD i 0 + h)).sum = l.sum + h := by
  induction l generalizing i with
  | nil => cases hi
  | cons a rest ih =>
    cases i with
    | zero =>
      simp only [List.getD_cons_zero, List.set_cons_zero, List.sum_cons]
      ring
    | succ n =>
      have hn : n < rest.length := by simpa using hi
      simp only [List.getD_cons_succ, List.set_cons_succ, List.sum_cons,
        ih n hn]
      ring

theorem bump_sum (l : List ℚ) (i : Nat) (h : ℚ) (hi : i < l.length) :
    (bump l i h).sum = l.sum + h :=
  sum_set_getD l i h hi

theorem bump_length (l : List ℚ) (i : Nat) (h : ℚ) :
    (bump l i h).length = l.length := by
  simp [bump]

theorem fillBuckets_sum (ss : List StudySession) (acc : List ℚ)
    (hlen : acc.length = 7) :
    (fillBuckets ss acc).sum = acc.sum + (ss.map StudySession.hours).sum := by
  induction ss generalizing acc with
  | nil => simp [fillBuckets]
  | cons s rest ih =>
    unfold fillBuckets
    have hi : weekday s.date < acc.length := by
      rw [hlen]
      exact Nat.mod_lt _ (by norm_num)
    rw [ih (bump acc (weekday s.date) s.hours) (by rw [bump_length, hlen])]
    rw [bump_sum acc (weekday s.date) s.hours hi]
    simp only [List.map_cons, List.sum_cons]
    ring

theorem currentWeek_filters_eq (db : DB) (uid today : Nat)
    (h : ∀ s ∈ db.sessions, s.user_id = uid →
      s.date < startOfWeek today + 7) :
    currentWeekQuery db uid today = currentWeekRecords db uid today := by
  unfold currentWeekQuery currentWeekRecords
  apply List.filter_congr
  intro s hs
  by_cases hu : s.user_id = uid
  · have hd : s.date < startOfWeek today + 7 := h s hs hu
    simp [hu, hd]
  · simp [hu]

theorem dictAdd_sum (m : List (String × ℚ)) (k : String) (v : ℚ) :
    ((dictAdd m k v).map Prod.snd).sum = (m.map Prod.snd).sum + v := by
  induction m with
  | nil => simp [dictAdd]
  | cons p rest ih =>
    obtain ⟨k', v'⟩ := p
    unfold dictAdd
    by_cases hk : (k' == k) = true
    · rw [if_pos hk]
      simp only [List.map_cons, List.sum_cons]
      ring
    · rw [if_neg hk]
      simp only [List.map_cons, List.sum_cons, ih]
      ring

theorem foldl_dictAdd_sum (ss : List StudySession) (m : List (String × ℚ)) :
    ((ss.foldl (fun acc s => dictAdd acc s.subject s.hours) m).map
      Prod.snd).sum = (m.map Prod.snd).sum + (ss.map StudySession.hours).sum := by
  induction ss generalizing m with
  | nil => simp
  | cons s rest ih =>
    simp only [List.foldl_cons, List.map_cons, List.sum_cons]
    rw [ih (dictAdd m s.subject s.hours), dictAdd_sum]
    ring

/-! ### Claims -/

/-- C1: for every logged-in account, the record listing produced by the
index operation contains only study records owned by that account. -/
theorem C1_index_scoped_to_owner (db : DB) (uid : Nat) (s : StudySession)
    (hs : s ∈ indexSessions db uid) : s.user_id = uid := by
  have h := (List.mem_filter.mp (mem_indexSessions.mp hs)).2
  simpa using h

/-- C1 witness: a concrete record in a concrete listing is owned by the
requesting account. -/
theorem C1_index_scoped_to_owner_witness :
    (⟨1, "math", (2 : ℚ), 3, 1⟩ : StudySession) ∈
      indexSessions ⟨[⟨1, "a@example.com", none⟩],
        [⟨1, "math", (2 : ℚ), 3, 1⟩]⟩ 1 ∧
    (⟨1, "math", (2 : ℚ), 3, 1⟩ : StudySession).user_id = 1 :=
  ⟨by simp [indexSessions, List.mergeSort_singleton],
    C1_index_scoped_to_owner
      ⟨[⟨1, "a@example.com", none⟩], [⟨1, "math", (2 : ℚ), 3, 1⟩]⟩ 1
      ⟨1, "math", (2 : ℚ), 3, 1⟩
      (by simp [indexSessions, List.mergeSort_singleton])⟩

/-- C2: deleting an existing record through an account that is not its owner
leaves the stored state unchanged (and answers a redirect, not a deletion). -/
theorem C2_delete_foreign_noop (db : DB) (uid : Nat) (s : StudySession)
    (hnodup : (db.sessions.map StudySession.id).Nodup)
    (hmem : s ∈ db.sessions) (hown : s.user_id ≠ uid) :
    deleteOp db uid s.id = (db, DeleteResp.redirect) := by
  unfold deleteOp
  rw [getById_of_mem hnodup hmem]
  simp [hown]

/-- C2 witness: deleting a record owned by account 2 while logged in as
account 1 changes nothing. -/
theorem C2_delete_foreign_noop_witness :
    ((([⟨1, "math", (2 : ℚ), 3, 2⟩] :
        List StudySession).map StudySession.id).Nodup ∧
      (⟨1, "math", (2 : ℚ), 3, 2⟩ : StudySession) ∈
        ([⟨1, "math", (2 : ℚ), 3, 2⟩] : List StudySession) ∧
      (⟨1, "math", (2 : ℚ), 3, 2⟩ : StudySession).user_id ≠ 1) ∧
    deleteOp ⟨[⟨1, "a@example.com", none⟩], [⟨1, "math", (2 : ℚ), 3, 2⟩]⟩ 1 1 =
      (⟨[⟨1, "a@example.com", none⟩], [⟨1, "math", (2 : ℚ), 3, 2⟩]⟩,
        DeleteResp.redirect) :=
  ⟨⟨by decide, by decide, by decide⟩,
    C2_delete_foreign_noop
      ⟨[⟨1, "a@example.com", none⟩], [⟨1, "math", (2 : ℚ), 3, 2⟩]⟩ 1
      ⟨1, "math", (2 : ℚ), 3, 2⟩ (by decide) (by decide) (by decide)⟩

/-- C3: for a pending email whose account stores one-time code `c`,
submitting any different code string leaves the account unauthenticated and
the stored state (in particular the stored code) unchanged, so the code can
be retried without limit. -/
theorem C3_wrong_otp_is_noop (db : DB) (e c entered : String) (u : User)
    (hu : findUserByEmail db.users e = some u)
    (hotp : u.current_otp = some c) (hne : entered ≠ c) :
    verify db (some e) entered = (db, none) := by
  unfold verify
  rw [show lookupPending db.users (some e) = some u from hu]
  dsimp only
  rw [hotp]
  have hcne : c ≠ entered := fun hh => hne hh.symm
  simp [hcne]

/-- C3 witness: submitting "000000" against stored code "123456" changes
nothing and logs nobody in. -/
theorem C3_wrong_otp_is_noop_witness :
    (findUserByEmail [⟨1, "a@example.com", some "123456"⟩] "a@example.com" =
        some ⟨1, "a@example.com", some "123456"⟩ ∧
      (⟨1, "a@example.com", some "123456"⟩ : User).current_otp =
        some "123456" ∧
      "000000" ≠ "123456") ∧
    verify ⟨[⟨1, "a@example.com", some "123456"⟩], []⟩
        (some "a@example.com") "000000" =
      (⟨[⟨1, "a@example.com", some "123456"⟩], []⟩, none) :=
  ⟨⟨by decide, by decide, by decide⟩,
    C3_wrong_otp_is_noop ⟨[⟨1, "a@example.com", some "123456"⟩], []⟩
      "a@example.com" "123456" "000000" ⟨1, "a@example.com", some "123456"⟩
      (by decide) (by decide) (by decide)⟩

/-- C9: a verify request with no pending email in the session, or with a
pending email no account holds, logs nobody in and changes nothing; a
missing pending email can never match an account because no stored account
has a null email. -/
theorem C9_verify_unknown_pending_noop (db : DB) (pending : Option String)
    (entered : String)
    (h : pending = none ∨ ∀ u ∈ db.users, pending ≠ some u.email) :
    verify db pending entered = (db, none) := by
  have hl : lookupPending db.users pending = none := by
    rcases h with h | h
    · rw [h]
      rfl
    · cases pending with
      | none => rfl
      | some e =>
        unfold lookupPending
        refine findUserByEmail_none fun u hu he => ?_
        exact (h u hu) (by rw [he])
  unfold verify
  rw [hl]

/-- C9 witness: a verify with no pending email against a non-empty user
table is a no-op that logs nobody in. -/
theorem C9_verify_unknown_pending_noop_witness :
    ((none : Option String) = none ∨
      ∀ u ∈ ([⟨1, "a@example.com", some "123456"⟩] : List User),
        (none : Option String) ≠ some u.email) ∧
    verify ⟨[⟨1, "a@example.com", some "123456"⟩], []⟩ none "123456" =
      (⟨[⟨1, "a@example.com", some "123456"⟩], []⟩, none) :=
  ⟨Or.inl rfl,
    C9_verify_unknown_pending_noop ⟨[⟨1, "a@example.com", some "123456"⟩], []⟩
      none "123456" (Or.inl rfl)⟩

/-- C8: every generated one-time code is the decimal string of an integer
between 100000 and 999999 inclusive, hence a numeric string of exactly six
decimal digits. -/
theorem C8_otp_six_digits (seed : Nat) :
    100000 ≤ genOtp seed ∧ genOtp seed ≤ 999999 ∧
      otpString seed = Nat.repr (genOtp seed) ∧
      (Nat.digits 10 (genOtp seed)).length = 6 := by
  have h1 : seed % 900000 < 900000 := Nat.mod_lt _ (by norm_num)
  refine ⟨Nat.le_add_right _ _, by unfold genOtp; omega, rfl, ?_⟩
  have hlow : 10 ^ 5 ≤ genOtp seed := by
    unfold genOtp
    norm_num
  have hhigh : genOtp seed < 10 ^ (5 + 1) := by
    unfold genOtp
    norm_num
    omega
  have hnz : genOtp seed ≠ 0 := by
    unfold genOtp
    omega
  rw [Nat.digits_len 10 _ (by norm_num) hnz,
    Nat.log_eq_of_pow_le_of_lt_pow hlow hhigh]

/-- C5: each login attempt overwrites the stored one-time code of the
email's account with the newly generated code; a successful verification
clears the stored code; and every other transition of the store — a verify
that does not authenticate, a record creation, a record deletion — leaves
the user table (hence the stored code) unchanged, so the code stays valid
until the next login attempt or successful verification. -/
theorem C5_otp_lifecycle (db : DB) (e : String) (seed : Nat)
    (pending : Option String) (entered : String) (uid i : Nat)
    (subj : String) (q : ℚ) (now : Nat) :
    (∃ u, findUserByEmail ((login db e seed).1).users e = some u ∧
      u.current_otp = some (otpString seed)) ∧
    (∀ u, lookupPending db.users pending = some u →
      u.current_otp = some entered →
      findUserByEmail ((verify db pending entered).1).users u.email =
        some { u with current_otp := none }) ∧
    ((verify db pending entered).2 = none →
      (verify db pending entered).1 = db) ∧
    (createSession db uid subj q now).users = db.users ∧
    ((deleteOp db uid i).1).users = db.users := by
  refine ⟨?_, ?_, ?_, rfl, deleteOp_users db uid i⟩
  · rw [login_users]
    cases hf : findUserByEmail db.users e with
    | some u =>
      exact ⟨{ u with current_otp := some (otpString seed) },
        findUserByEmail_setOtpFirst hf (some (otpString seed)), rfl⟩
    | none =>
      have hnew : findUserByEmail
          (db.users ++ [⟨freshId (db.users.map User.id), e, none⟩]) e =
          some ⟨freshId (db.users.map User.id), e, none⟩ := by
        rw [findUserByEmail_append_none hf]
        simp [findUserByEmail]
      exact ⟨⟨freshId (db.users.map User.id), e, some (otpString seed)⟩,
        findUserByEmail_setOtpFirst hnew (some (otpString seed)), rfl⟩
  · intro u hv hmatch
    cases pending with
    | none => cases hv
    | some e' =>
      have hf : findUserByEmail db.users e' = some u := hv
      have hue : u.email = e' := findUserByEmail_email hf
      unfold verify
      rw [show lookupPending db.users (some e') = some u from hf]
      dsimp only
      rw [if_pos (by rw [hmatch]; exact beq_self_eq_true _)]
      dsimp only
      rw [hue]
      simpa [hue] using findUserByEmail_setOtpFirst hf none
  · intro h
    unfold verify at h ⊢
    cases hl : lookupPending db.users pending with
    | none => rfl
    | some u =>
      rw [hl] at h
      dsimp only at h ⊢
      by_cases hc : (u.current_otp == some entered) = true
      · rw [if_pos hc] at h
        cases h
      · rw [if_neg hc]

/-- C7: email is an identity key — at most one account per email — and the
invariant is preserved by login, verify, record creation and record
deletion; a login attempt for an unknown email creates exactly one account
for it (auto-registration, no verification step), and a login attempt for a
known email creates none. -/
theorem C7_email_identity_key (db : DB) (e : String) (seed : Nat)
    (pending : Option String) (entered : String) (uid i : Nat)
    (subj : String) (q : ℚ) (now : Nat) :
    ((db.users.map User.email).Nodup →
      ((((login db e seed).1).users).map User.email).Nodup ∧
      ((((verify db pending entered).1).users).map User.email).Nodup ∧
      (((createSession db uid subj q now).users).map User.email).Nodup ∧
      ((((deleteOp db uid i).1).users).map User.email).Nodup) ∧
    (findUserByEmail db.users e = none →
      ((login db e seed).1).users.length = db.users.length + 1 ∧
      ((((login db e seed).1).users).map User.email).count e = 1) ∧
    (∀ u, findUserByEmail db.users e = some u →
      ((login db e seed).1).users.length = db.users.length) := by
  refine ⟨?_, ?_, ?_⟩
  · intro hnd
    refine ⟨?_, ?_, hnd, ?_⟩
    · rw [login_users]
      cases hf : findUserByEmail db.users e with
      | some u =>
        rw [setOtpFirst_map_email]
        exact hnd
      | none =>
        rw [setOtpFirst_map_email, List.map_append]
        rw [List.nodup_append]
        refine ⟨hnd, List.nodup_singleton e, ?_⟩
        intro a ha hb
        have hae : a = e := by simpa using hb
        subst hae
        rcases List.mem_map.mp ha with ⟨u, hu, hue⟩
        exact email_ne_of_find_none hf u hu hue
    · rw [verify_map_email]
      exact hnd
    · rw [deleteOp_users]
      exact hnd
  · intro hf
    rw [login_users]
    rw [show (match findUserByEmail db.users e with
        | some _ => db.users
        | none => db.users ++ [⟨freshId (db.users.map User.id), e, none⟩]) =
        db.users ++ [⟨freshId (db.users.map User.id), e, none⟩] from by
      rw [hf]]
    constructor
    · rw [setOtpFirst_length, List.length_append]
      rfl
    · rw [setOtpFirst_map_email, List.map_append]
      rw [List.count_append]
      have h0 : (db.users.map User.email).count e = 0 := by
        rw [List.count_eq_zero]
        intro hmem
        rcases List.mem_map.mp hmem with ⟨u, hu, hue⟩
        exact email_ne_of_find_none hf u hu hue
      rw [h0]
      simp
  · intro u hf
    rw [login_users]
    rw [show (match findUserByEmail db.users e with
        | some _ => db.users
        | none => db.users ++ [⟨freshId (db.users.map User.id), e, none⟩]) =
        db.users from by rw [hf]]
    exact setOtpFirst_length db.users e _

/-- C4 counterexample: the stats week filter has no upper bound
(`date >= start_of_week` only), so with `today = 10` (a Thursday, start of
week 7) a record dated 14 — the Monday after the current week — is added to
the weekday buckets although it is not in the current week: the buckets sum
to 1 while the current week's raw hours sum to 0. -/
theorem C4_buckets_counterexample :
    (dailyValues ⟨[⟨1, "a@example.com", none⟩],
        [⟨1, "math", (1 : ℚ), 14, 1⟩]⟩ 1 10).sum ≠
      ((currentWeekRecords ⟨[⟨1, "a@example.com", none⟩],
          [⟨1, "math", (1 : ℚ), 14, 1⟩]⟩ 1 10).map StudySession.hours).sum := by
  norm_num [dailyValues, currentWeekQuery, currentWeekRecords, fillBuckets,
    bump, weekday, startOfWeek, List.replicate, List.filter]

/-- C4 (amended): provided none of the account's records is dated after the
current week's Sunday — which the stats query does not itself enforce — the
seven per-weekday buckets sum to the total of the account's raw hours for
the current week (Monday through Sunday). -/
theorem C4_buckets_sum_current_week (db : DB) (uid today : Nat)
    (h : ∀ s ∈ db.sessions, s.user_id = uid →
      s.date < startOfWeek today + 7) :
    (dailyValues db uid today).sum =
      ((currentWeekRecords db uid today).map StudySession.hours).sum := by
  unfold dailyValues
  rw [fillBuckets_sum _ _ (by simp), currentWeek_filters_eq db uid today h]
  simp

/-- C4 witness: with one in-week record of 2 hours (date 8, today 10) the
bucket total equals the current week's raw total. -/
theorem C4_buckets_sum_current_week_witness :
    (∀ s ∈ ([⟨1, "math", (2 : ℚ), 8, 1⟩] : List StudySession),
      s.user_id = 1 → s.date < startOfWeek 10 + 7) ∧
    (dailyValues ⟨[⟨1, "a@example.com", none⟩],
        [⟨1, "math", (2 : ℚ), 8, 1⟩]⟩ 1 10).sum =
      ((currentWeekRecords ⟨[⟨1, "a@example.com", none⟩],
          [⟨1, "math", (2 : ℚ), 8, 1⟩]⟩ 1 10).map StudySession.hours).sum :=
  ⟨by decide,
    C4_buckets_sum_current_week
      ⟨[⟨1, "a@example.com", none⟩], [⟨1, "math", (2 : ℚ), 8, 1⟩]⟩ 1 10
      (by decide)⟩

/-- C10: the per-subject totals of the stats view partition the account's
records — their sum equals the sum of all of the account's raw hours, which
is exactly the total the index operation displays. -/
theorem C10_subject_totals_partition (db : DB) (uid : Nat) :
    ((subjectData db uid).map Prod.snd).sum =
      ((db.sessions.filter (fun s => s.user_id == uid)).map
        StudySession.hours).sum ∧
    ((subjectData db uid).map Prod.snd).sum = totalHours db uid := by
  have h1 : ((subjectData db uid).map Prod.snd).sum =
      ((db.sessions.filter (fun s => s.user_id == uid)).map
        StudySession.hours).sum := by
    unfold subjectData
    rw [foldl_dictAdd_sum]
    simp
  refine ⟨h1, ?_⟩
  rw [h1]
  unfold totalHours
  have hp : List.Perm (indexSessions db uid)
      (db.sessions.filter (fun s => s.user_id == uid)) :=
    List.mergeSort_perm _ _
  exact ((hp.map StudySession.hours).sum_eq).symm

/-- C6: a delete request for a record id that does not exist returns a
not-found response and leaves the stored state unchanged. -/
theorem C6_delete_missing_notFound (db : DB) (uid i : Nat)
    (h : getById db.sessions i = none) :
    deleteOp db uid i = (db, DeleteResp.notFound) := by
  unfold deleteOp
  rw [h]

/-- C6 witness: deleting id 7 from a store that only holds id 1 is a 404
no-op. -/
theorem C6_delete_missing_notFound_witness :
    getById ([⟨1, "math", (2 : ℚ), 3, 1⟩] : List StudySession) 7 = none ∧
    deleteOp ⟨[⟨1, "a@example.com", none⟩], [⟨1, "math", (2 : ℚ), 3, 1⟩]⟩ 1 7 =
      (⟨[⟨1, "a@example.com", none⟩], [⟨1, "math", (2 : ℚ), 3, 1⟩]⟩,
        DeleteResp.notFound) :=
  ⟨by decide, C6_delete_missing_notFound
    ⟨[⟨1, "a@example.com", none⟩], [⟨1, "math", (2 : ℚ), 3, 1⟩]⟩ 1 7
    (by decide)⟩

end StudyTracker
